import Mathlib

/-
Verification of the data-cleaning pipeline of app.py (Master Data Cleaner).

The script loads a CSV/Excel upload into a pandas DataFrame, profiles it
(null counts, duplicate rows, column types, empty columns), then applies up
to four cleaning transformations (dropna, fillna, drop_duplicates, rename)
to a copy of the frame, and builds a report.

The shallow embedding below models a DataFrame as a Table: a list of column
names plus a list of rows, each row a list of cells.  A cell is either the
missing marker (pandas NaN/None; pandas treats NaN cells as equal for
duplicated/drop_duplicates, so the missing marker is an ordinary value with
decidable equality here), a numeric value, a text value, or a boolean.
Numeric cells are carried as integers: no claim performs numeric arithmetic,
only equality of cell values matters.
-/

namespace DataCleaner

/-- A single cell of the table: the missing marker or a typed value. -/
inductive Cell
  | missing
  | num (x : Int)
  | text (s : String)
  | boolean (b : Bool)
deriving DecidableEq

/-- In-memory table: ordered column names and ordered rows of cells. -/
structure Table where
  cols : List String
  rows : List (List Cell)
deriving DecidableEq

/-- True exactly on the missing marker (pandas isnull on one cell). -/
def Cell.isMissing : Cell → Bool
  | .missing => true
  | _ => false

/-- Models df.dropna(): keep exactly the rows with no missing cell (line 116). -/
def dropna (t : Table) : Table :=
  { t with rows := t.rows.filter (fun r => !r.any Cell.isMissing) }

/-- One cell of df.fillna(v): the missing marker becomes the text v, any other
cell is unchanged. -/
def fillCell (v : String) : Cell → Cell
  | .missing => Cell.text v
  | .num x => Cell.num x
  | .text s => Cell.text s
  | .boolean b => Cell.boolean b

/-- Models df.fillna(v) with a string placeholder (line 119). -/
def fillna (v : String) (t : Table) : Table :=
  { t with rows := t.rows.map (fun r => r.map (fillCell v)) }

/-- Keep the first occurrence of each element, dropping later repeats; seen
accumulates the elements already kept (pandas drop_duplicates, keep=first). -/
def dedupFirstAux {α : Type} [DecidableEq α] (seen : List α) : List α → List α
  | [] => []
  | r :: rs => if r ∈ seen then dedupFirstAux seen rs else r :: dedupFirstAux (r :: seen) rs

/-- Models df.drop_duplicates() (line 122): remove every row equal to an
earlier surviving row, keeping the first occurrence, order preserved. -/
def drop_duplicates (t : Table) : Table :=
  { t with rows := dedupFirstAux [] t.rows }

/-- Models df.duplicated() (line 57): one flag per row, true exactly when the
row equals some earlier row. -/
def duplicatedFlags {α : Type} [DecidableEq α] (seen : List α) : List α → List Bool
  | [] => []
  | r :: rs => decide (r ∈ seen) :: duplicatedFlags (r :: seen) rs

/-- Models duplicate_count = df.duplicated().sum() (line 57). -/
def duplicate_count (t : Table) : Nat :=
  (duplicatedFlags ([] : List (List Cell)) t.rows).count true

/-- The cells of the column named c, reading each row at the index of c in the
column list (models df[col] for the unique-label tables the app works on). -/
def colOf (t : Table) (c : String) : List Cell :=
  t.rows.map (fun r => r.getD (t.cols.findIdx (fun x => x == c)) Cell.missing)

/-- Models df[col].count(): number of non-missing cells of the column. -/
def countNonMissing (t : Table) (c : String) : Nat :=
  (colOf t c).countP (fun x => !Cell.isMissing x)

/-- Models line 63: empty_cols = the columns whose non-missing count is 0. -/
def empty_cols (t : Table) : List String :=
  t.cols.filter (fun c => countNonMissing t c == 0)

/-- Total number of missing-marker cells of a table (df.isnull().sum().sum()). -/
def countMissingCells (t : Table) : Nat :=
  (t.rows.map (fun r => r.countP Cell.isMissing)).sum

/-- Models Python str.split(sep) for a one-character separator: "".split(sep)
is [""], and a separator at either end produces an empty field. -/
def splitCh (sep : Char) : List Char → List (List Char)
  | [] => [[]]
  | c :: cs =>
    let r := splitCh sep cs
    if c = sep then [] :: r else (c :: r.headD []) :: r.tail

/-- Whitespace characters relevant to the strip() calls of line 127. -/
def isSpaceCh (c : Char) : Bool :=
  c = ' ' || c = '\t' || c = '\n' || c = '\r'

/-- Models Python str.strip(): drop leading and trailing whitespace. -/
def trimCh (s : List Char) : List Char :=
  ((s.dropWhile isSpaceCh).reverse.dropWhile isSpaceCh).reverse

/-- Models building one entry of the dict comprehension of lines 126-129:
the key is pair.split(":")[0].strip() and the value pair.split(":")[1].strip().
Returns none exactly when the indexing [1] would raise IndexError, that is
when the pair contains no colon. -/
def parsePair (p : List Char) : Option (String × String) :=
  match splitCh ':' p with
  | k :: v :: _ => some (String.mk (trimCh k), String.mk (trimCh v))
  | _ => none

/-- Evaluate f on every element left to right, failing as a whole as soon as
one element fails (the comprehension aborts at the first IndexError). -/
def mapOption {α β : Type} (f : α → Option β) : List α → Option (List β)
  | [] => some []
  | a :: as =>
    match f a with
    | none => none
    | some b => (mapOption f as).map (fun bs => b :: bs)

/-- Models the whole dict comprehension over rename_columns.split(","):
some list of (old, new) pairs in insertion order, or none when any pair
raises IndexError (which aborts the comprehension as a whole). -/
def parseMappings (s : String) : Option (List (String × String)) :=
  mapOption parsePair (splitCh ',' s.data)

/-- Python dict lookup for the comprehension result: a later pair with the
same key overwrites an earlier one, so the last matching pair wins. -/
def dictGet (m : List (String × String)) (k : String) : Option String :=
  (m.reverse.find? (fun e => e.1 == k)).map (fun e => e.2)

/-- Models cleaned_df.rename(columns=mappings) (line 130): every column label
found in the dict is replaced by its image; labels not in the dict are kept;
dict keys matching no label are silently ignored (pandas default
errors=ignore, so no exception is raised for unmatched keys). -/
def renameCols (m : List (String × String)) (t : Table) : Table :=
  { t with cols := t.cols.map (fun c => (dictGet m c).getD c) }

/-- Models the rename block of lines 124-132: build the dict and rename; if
the comprehension raises, the step is skipped and st.warning is called.  The
Bool of the result records whether the warning was emitted. -/
def renameStep (s : String) (t : Table) : Table × Bool :=
  match parseMappings s with
  | none => (t, true)
  | some m => (renameCols m t, false)

/-- The four cleaning options of lines 104-110: three checkboxes and the
rename text input (the step runs when the string is non-empty, Python
truthiness of the text input). -/
structure Selection where
  drop_nulls : Bool
  fill_nulls : Bool
  drop_dupes : Bool
  rename_columns : String
deriving DecidableEq

/-- Models the Apply Cleaning handler body, lines 113-132: start from a copy
of df and reassign cleaned_df through the four conditional steps in program
order.  The Bool records whether the rename warning was emitted. -/
def applyCleaning (sel : Selection) (df : Table) : Table × Bool :=
  let cleaned := df
  let cleaned := if sel.drop_nulls then dropna cleaned else cleaned
  let cleaned := if sel.fill_nulls then fillna "N/A" cleaned else cleaned
  let cleaned := if sel.drop_dupes then drop_duplicates cleaned else cleaned
  if sel.rename_columns = "" then (cleaned, false)
  else renameStep sel.rename_columns cleaned

/-- The drop-nulls stage as a standalone conditional transformation. -/
def dropNullsStep (b : Bool) (t : Table) : Table :=
  if b then dropna t else t

/-- The fill-nulls stage as a standalone conditional transformation. -/
def fillNullsStep (b : Bool) (t : Table) : Table :=
  if b then fillna "N/A" t else t

/-- The drop-duplicates stage as a standalone conditional transformation. -/
def dropDupesStep (b : Bool) (t : Table) : Table :=
  if b then drop_duplicates t else t

/-- The rename stage as a standalone conditional transformation (table part). -/
def renameCondStep (s : String) (t : Table) : Table :=
  if s = "" then t else (renameStep s t).1

/-- State left by the Apply Cleaning handler: the loaded frame df, the new
frame cleaned_df, and whether a rename warning was shown. -/
structure CleanSession where
  df : Table
  cleaned_df : Table
  warned : Bool
deriving DecidableEq

/-- Models the handler as a whole: df is only read (df.copy() at line 113;
dropna, fillna, drop_duplicates and rename all return new frames, none is
called with inplace=True), so the session keeps the loaded df as is. -/
def applyCleaningHandler (df : Table) (sel : Selection) : CleanSession :=
  let r := applyCleaning sel df
  { df := df, cleaned_df := r.1, warned := r.2 }

/-- df.shape: (number of rows, number of columns). -/
def shape (t : Table) : Nat × Nat :=
  (t.rows.length, t.cols.length)

/-- The report fields of lines 159-164 that derive from the tables. -/
structure ReportData where
  originalShape : Nat × Nat
  cleanedShape : Nat × Nat
  dupRemoved : Nat
deriving DecidableEq

/-- Models the PDF report lines 159-164: the original shape comes from df,
the cleaned shape from cleaned_df, and the duplicate count from the
pre-cleaning profile of df. -/
def buildReport (s : CleanSession) : ReportData :=
  { originalShape := shape s.df
    cleanedShape := shape s.cleaned_df
    dupRemoved := duplicate_count s.df }

/-- Errors the CSV load of lines 30-34 can hit: the strict UTF-8 decode
failure that the inner except catches, and the empty-input parser error the
outer handler of line 194 catches. -/
inductive LoadErr
  | unicodeDecode
  | emptyData
deriving DecidableEq

/-- The uploaded file as the handler sees it: a byte sequence plus the
current read position of the stream.  Reads consume the stream; nothing in
the script rewinds it. -/
structure UploadedFile where
  name : String
  content : List Nat
  pos : Nat
deriving DecidableEq

/-- The two encodings the loader uses. -/
inductive Encoding
  | utf8
  | latin1
deriving DecidableEq

/-- A UTF-8 continuation byte. -/
def isContByte (b : Nat) : Bool :=
  128 ≤ b && b ≤ 191

/-- Strict UTF-8 decoding of a byte sequence, as Python's utf-8 codec
performs it: rejects stray continuation bytes, overlong forms, surrogates and
codepoints above U+10FFFF; none models UnicodeDecodeError. -/
def utf8Decode : List Nat → Option (List Char)
  | [] => some []
  | b :: rest =>
    if b ≤ 127 then
      (utf8Decode rest).map (fun cs => Char.ofNat b :: cs)
    else if 194 ≤ b && b ≤ 223 then
      match rest with
      | c1 :: r =>
        if isContByte c1 then
          (utf8Decode r).map (fun cs => Char.ofNat ((b - 192) * 64 + (c1 - 128)) :: cs)
        else none
      | [] => none
    else if 224 ≤ b && b ≤ 239 then
      match rest with
      | c1 :: c2 :: r =>
        let lo1 := if b = 224 then 160 else 128
        let hi1 := if b = 237 then 159 else 191
        if (lo1 ≤ c1 && c1 ≤ hi1) && isContByte c2 then
          (utf8Decode r).map (fun cs =>
            Char.ofNat ((b - 224) * 4096 + (c1 - 128) * 64 + (c2 - 128)) :: cs)
        else none
      | _ => none
    else if 240 ≤ b && b ≤ 244 then
      match rest with
      | c1 :: c2 :: c3 :: r =>
        let lo1 := if b = 240 then 144 else 128
        let hi1 := if b = 244 then 143 else 191
        if ((lo1 ≤ c1 && c1 ≤ hi1) && isContByte c2) && isContByte c3 then
          (utf8Decode r).map (fun cs =>
            Char.ofNat ((b - 240) * 262144 + (c1 - 128) * 4096 + (c2 - 128) * 64 + (c3 - 128)) :: cs)
        else none
      | _ => none
    else none

/-- Decode bytes under the requested encoding.  Latin-1 maps every byte to
the character of the same codepoint and never fails. -/
def decodeBytes : Encoding → List Nat → Option (List Char)
  | Encoding.utf8, bs => utf8Decode bs
  | Encoding.latin1, bs => some (bs.map Char.ofNat)

/-- Models the delimited-text parsing of pd.read_csv on decoded text,
restricted to the simple unquoted CSV the claims exercise: blank lines are
skipped, the first remaining line is the header, every later line is a data
row of text cells (the library's numeric type inference is irrelevant to the
loader claims).  An input with no non-blank line raises EmptyDataError. -/
def parseCsvChars (cs : List Char) : Except LoadErr Table :=
  let lines := (splitCh '\n' cs).filter (fun l => !l.isEmpty)
  match lines with
  | [] => Except.error LoadErr.emptyData
  | header :: dataRows =>
    Except.ok
      { cols := (splitCh ',' header).map String.mk
        rows := dataRows.map (fun l => (splitCh ',' l).map (fun f => Cell.text (String.mk f))) }

/-- Models pd.read_csv(uploaded_file, encoding=e) on a stream: the parser
reads the remaining bytes of the stream, leaving the position at the end of
the content whether or not decoding succeeds (for inputs smaller than one
decoder chunk the whole buffer is consumed before a decode error surfaces,
and pandas detaches its text wrapper without rewinding the caller's stream). -/
def read_csv (f : UploadedFile) (e : Encoding) : Except LoadErr Table × UploadedFile :=
  let bytes := f.content.drop f.pos
  let f2 : UploadedFile := { f with pos := f.content.length }
  match decodeBytes e bytes with
  | none => (Except.error LoadErr.unicodeDecode, f2)
  | some cs => (parseCsvChars cs, f2)

/-- Models the CSV branch of lines 30-34: try UTF-8; on UnicodeDecodeError
retry with ISO-8859-1 on the same stream object.  The code never calls
seek(0), so the retry starts from wherever the failed parse left the
stream. -/
def loadCsv (f : UploadedFile) : Except LoadErr Table × UploadedFile :=
  match read_csv f Encoding.utf8 with
  | (Except.error LoadErr.unicodeDecode, f2) => read_csv f2 Encoding.latin1
  | other => other

/-- A one-column, one-row table used as concrete input. -/
def tA : Table := { cols := ["A"], rows := [[Cell.num 1]] }

/-- A two-column table with no rows. -/
def tNoRows : Table := { cols := ["A", "B"], rows := [] }

/-- Cleaning Selection whose rename spec holds a well-formed pair A:B and a
pair with an empty old name (claim C2's malformed case). -/
def selEmptyOld : Selection :=
  { drop_nulls := false, fill_nulls := false, drop_dupes := false, rename_columns := "A:B, :C" }

/-- Cleaning Selection whose rename spec holds a key X absent from tA's
columns next to the matching pair A:B (claim C3's unmatched-key case). -/
def selMissingKey : Selection :=
  { drop_nulls := false, fill_nulls := false, drop_dupes := false, rename_columns := "X:Y,A:B" }

/-- A 4-byte upload declared .csv whose bytes are the Latin-1 encoding of a
header line a and a data line with the single character of codepoint 233:
not valid UTF-8, valid Latin-1. -/
def latin1File : UploadedFile :=
  { name := "data.csv", content := [97, 10, 233, 10], pos := 0 }

deriving instance DecidableEq for Except

/-- Splitting never yields an empty list of fields. -/
lemma splitCh_ne_nil (sep : Char) : ∀ l : List Char, splitCh sep l ≠ [] := by
  intro l
  cases l with
  | nil => simp [splitCh]
  | cons c cs =>
    simp only [splitCh]
    by_cases h : c = sep
    · simp [h]
    · simp [h]

/-- A pair with no separator splits into the single whole field. -/
lemma splitCh_eq_single (sep : Char) :
    ∀ l : List Char, sep ∉ l → splitCh sep l = [l] := by
  intro l
  induction l with
  | nil => intro _; rfl
  | cons c cs ih =>
    intro hsep
    have hc : ¬c = sep := by
      intro hc
      exact hsep (hc ▸ List.mem_cons_self c cs)
    have hcs : sep ∉ cs := fun hm => hsep (List.mem_cons_of_mem c hm)
    simp only [splitCh, if_neg hc, ih hcs]
    rfl

/-- A pair containing the separator splits into at least two fields. -/
lemma splitCh_two_le (sep : Char) :
    ∀ l : List Char, sep ∈ l → 2 ≤ (splitCh sep l).length := by
  intro l
  induction l with
  | nil => intro h; cases h
  | cons c cs ih =>
    intro hsep
    simp only [splitCh]
    by_cases h : c = sep
    · have hlen : 0 < (splitCh sep cs).length :=
        List.length_pos.mpr (splitCh_ne_nil sep cs)
      simp only [if_pos h, List.length_cons]
      omega
    · have hmem : sep ∈ cs := by
        rcases List.mem_cons.mp hsep with hh | hh
        · exact absurd hh.symm h
        · exact hh
      have h2 := ih hmem
      have hn := splitCh_ne_nil sep cs
      simp only [if_neg h, List.length_cons, List.length_tail]
      omega

/-- A pair without a colon fails to parse (the IndexError case). -/
lemma parsePair_eq_none {p : List Char} (h : ':' ∉ p) : parsePair p = none := by
  unfold parsePair
  rw [splitCh_eq_single ':' p h]

/-- A pair containing a colon parses. -/
lemma parsePair_isSome {p : List Char} (h : ':' ∈ p) : (parsePair p).isSome := by
  have h2 := splitCh_two_le ':' p h
  unfold parsePair
  cases hs : splitCh ':' p with
  | nil => exact absurd hs (splitCh_ne_nil ':' p)
  | cons k r =>
    cases r with
    | nil => rw [hs] at h2; simp at h2
    | cons v rest => simp

/-- mapOption fails as soon as one element fails. -/
lemma mapOption_eq_none_of_mem {α β : Type} (f : α → Option β) :
    ∀ (l : List α) (x : α), x ∈ l → f x = none → mapOption f l = none := by
  intro l
  induction l with
  | nil => intro x hx; cases hx
  | cons a as ih =>
    intro x hx hfx
    rcases List.mem_cons.mp hx with rfl | hx2
    · simp [mapOption, hfx]
    · cases hfa : f a with
      | none => simp [mapOption, hfa]
      | some b => simp [mapOption, hfa, ih x hx2 hfx]

/-- mapOption succeeds when every element succeeds. -/
lemma mapOption_isSome_of_all {α β : Type} (f : α → Option β) :
    ∀ l : List α, (∀ x ∈ l, (f x).isSome) → (mapOption f l).isSome := by
  intro l
  induction l with
  | nil => intro _; simp [mapOption]
  | cons a as ih =>
    intro h
    have ha := h a (List.mem_cons_self a as)
    obtain ⟨b, hb⟩ := Option.isSome_iff_exists.mp ha
    have has := ih (fun x hx => h x (List.mem_cons_of_mem a hx))
    obtain ⟨bs, hbs⟩ := Option.isSome_iff_exists.mp has
    simp [mapOption, hb, hbs]

/-- Everything dedupFirstAux keeps avoids the seen accumulator. -/
lemma dedupFirstAux_not_mem_seen {α : Type} [DecidableEq α] :
    ∀ (l seen : List α) (x : α), x ∈ dedupFirstAux seen l → x ∉ seen := by
  intro l
  induction l with
  | nil => intro seen x hx; simp [dedupFirstAux] at hx
  | cons r rs ih =>
    intro seen x hx
    simp only [dedupFirstAux] at hx
    by_cases h : r ∈ seen
    · rw [if_pos h] at hx
      exact ih seen x hx
    · rw [if_neg h] at hx
      rcases List.mem_cons.mp hx with rfl | hx2
      · exact h
      · have h3 := ih (r :: seen) x hx2
        intro hc
        exact h3 (List.mem_cons_of_mem r hc)

/-- The output of dedupFirstAux has no repeated element. -/
lemma dedupFirstAux_nodup {α : Type} [DecidableEq α] :
    ∀ (l seen : List α), (dedupFirstAux seen l).Nodup := by
  intro l
  induction l with
  | nil => intro seen; simp [dedupFirstAux]
  | cons r rs ih =>
    intro seen
    simp only [dedupFirstAux]
    by_cases h : r ∈ seen
    · rw [if_pos h]; exact ih seen
    · rw [if_neg h]
      refine List.nodup_cons.mpr ⟨?_, ih (r :: seen)⟩
      intro hc
      exact dedupFirstAux_not_mem_seen rs (r :: seen) r hc (List.mem_cons_self r seen)

/-- dedupFirstAux leaves a list without repeats, disjoint from seen, as is. -/
lemma dedupFirstAux_eq_self {α : Type} [DecidableEq α] :
    ∀ (l seen : List α), l.Nodup → (∀ x ∈ l, x ∉ seen) → dedupFirstAux seen l = l := by
  intro l
  induction l with
  | nil => intro seen _ _; rfl
  | cons r rs ih =>
    intro seen hnd hdisj
    have h : r ∉ seen := hdisj r (List.mem_cons_self r rs)
    simp only [dedupFirstAux, if_neg h]
    congr 1
    refine ih (r :: seen) (List.nodup_cons.mp hnd).2 ?_
    intro x hx hc
    rcases List.mem_cons.mp hc with rfl | hc2
    · exact (List.nodup_cons.mp hnd).1 hx
    · exact hdisj x (List.mem_cons_of_mem r hx) hc2

/-- Counting invariant behind df.duplicated().sum(): the number of rows
flagged as duplicates plus the number of distinct rows not yet seen equals
the number of rows scanned. -/
lemma duplicatedFlags_count {α : Type} [DecidableEq α] :
    ∀ (l seen : List α),
      (duplicatedFlags seen l).count true + (l.toFinset \ seen.toFinset).card = l.length := by
  intro l
  induction l with
  | nil => intro seen; simp [duplicatedFlags]
  | cons r rs ih =>
    intro seen
    have hrec := ih (r :: seen)
    by_cases h : r ∈ seen
    · have h1 : ((r :: rs).toFinset : Finset α) \ seen.toFinset = rs.toFinset \ seen.toFinset := by
        ext x
        by_cases hx : x = r
        · subst hx
          simp [List.mem_toFinset, h]
        · simp [hx]
      have h2 : ((r :: seen).toFinset : Finset α) = seen.toFinset := by
        simp [List.toFinset_cons, Finset.insert_eq_self, List.mem_toFinset, h]
      rw [h2] at hrec
      have hD : duplicatedFlags seen (r :: rs) = true :: duplicatedFlags (r :: seen) rs := by
        simp [duplicatedFlags, h]
      rw [hD, h1]
      simp only [List.count_cons, List.length_cons, beq_self_eq_true, if_true]
      omega
    · have h1 : ((r :: rs).toFinset : Finset α) \ seen.toFinset
          = insert r (rs.toFinset \ ((r :: seen).toFinset : Finset α)) := by
        ext x
        by_cases hx : x = r
        · subst hx
          simp [List.mem_toFinset, h]
        · simp [hx, List.toFinset_cons]
      have hnm : r ∉ rs.toFinset \ ((r :: seen).toFinset : Finset α) := by
        simp [List.toFinset_cons]
      have hD : duplicatedFlags seen (r :: rs) = false :: duplicatedFlags (r :: seen) rs := by
        simp [duplicatedFlags, h]
      rw [hD, h1, Finset.card_insert_of_not_mem hnm]
      simp only [List.count_cons, List.length_cons]
      simp only [List.toFinset_cons] at hrec ⊢
      simp
      omega

/-- C1: for every loaded table and every Cleaning Selection, the Apply
Cleaning handler equals the composition of the four transformations in the
fixed order drop-nulls, fill-nulls, drop-duplicates, rename, each step
running only when its own flag or field is set and each consuming the output
of the previous step. -/
theorem c1_pipeline_fixed_order (sel : Selection) (df : Table) :
    (applyCleaning sel df).1 =
      renameCondStep sel.rename_columns
        (dropDupesStep sel.drop_dupes
          (fillNullsStep sel.fill_nulls
            (dropNullsStep sel.drop_nulls df))) := by
  unfold applyCleaning renameCondStep dropDupesStep fillNullsStep dropNullsStep
  by_cases h : sel.rename_columns = "" <;> simp [h]

/-- C4: for every table, the profiled duplicate-row count of line 57 equals
the row count minus the number of distinct rows under full-row equality. -/
theorem c4_duplicate_count_eq (t : Table) :
    duplicate_count t = t.rows.length - t.rows.toFinset.card := by
  have h := duplicatedFlags_count t.rows ([] : List (List Cell))
  simp only [List.toFinset_nil, Finset.sdiff_empty] at h
  unfold duplicate_count
  omega

/-- C7: drop-duplicates is idempotent, applying it twice yields exactly the
table obtained by applying it once. -/
theorem c7_drop_duplicates_idempotent (t : Table) :
    drop_duplicates (drop_duplicates t) = drop_duplicates t := by
  unfold drop_duplicates
  congr 1
  exact dedupFirstAux_eq_self (dedupFirstAux [] t.rows) []
    (dedupFirstAux_nodup t.rows []) (by intro x hx; simp)

/-- C2 counterexample: the rename spec "A:B, :C" contains a pair whose old
name is empty after stripping, so the claim requires the whole rename step to
be skipped (columns unchanged) with a warning.  The code instead builds the
dict with the empty key, applies the rename (A becomes B, so columns change
from ["A"] to ["B"]) and emits no warning: only a missing colon raises the
IndexError the handler catches. -/
theorem c2_rename_empty_old_counterexample :
    parsePair (String.data " :C") = some ("", "C") ∧
    (applyCleaning selEmptyOld tA).1 = { cols := ["B"], rows := [[Cell.num 1]] } ∧
    (applyCleaning selEmptyOld tA).2 = false ∧
    ¬((applyCleaning selEmptyOld tA).1.cols = tA.cols ∧
      (applyCleaning selEmptyOld tA).2 = true) := by
  refine ⟨rfl, rfl, rfl, ?_⟩
  intro h
  exact absurd h.2 (by decide)

/-- C2 amended: if some comma-separated pair of the rename spec has no colon,
the entire rename step is skipped (the table is returned unchanged, no pair
applied) and a warning is emitted; when every pair contains a colon the
comprehension succeeds (an empty old name included, its key simply matches no
column) and no warning is emitted. -/
theorem c2_rename_malformed_amended (s : String) (t : Table) :
    ((∃ p ∈ splitCh ',' s.data, ':' ∉ p) → renameStep s t = (t, true)) ∧
    ((∀ p ∈ splitCh ',' s.data, ':' ∈ p) → (renameStep s t).2 = false) := by
  constructor
  · rintro ⟨p, hp, hpc⟩
    unfold renameStep parseMappings
    rw [mapOption_eq_none_of_mem parsePair (splitCh ',' s.data) p hp (parsePair_eq_none hpc)]
  · intro h
    unfold renameStep parseMappings
    have hs := mapOption_isSome_of_all parsePair (splitCh ',' s.data)
      (fun p hp => parsePair_isSome (h p hp))
    obtain ⟨m, hm⟩ := Option.isSome_iff_exists.mp hs
    rw [hm]

/-- Witness for c2_rename_malformed_amended at the spec's own example: the
colon-free spec "Name-NewName" leaves the table unchanged and warns. -/
theorem c2_rename_malformed_amended_witness :
    renameStep "Name-NewName" tA = (tA, true) :=
  (c2_rename_malformed_amended "Name-NewName" tA).1
    ⟨String.data "Name-NewName", by decide, by decide⟩

/-- C3 counterexample: the rename spec "X:Y,A:B" parses in full but the key X
does not occur among tA's columns, so the claim requires the whole rename
step to be skipped with a warning and no key applied.  The code instead
applies the matching key (A becomes B) and silently ignores the unmatched X
without any warning. -/
theorem c3_rename_unmatched_counterexample :
    parseMappings "X:Y,A:B" = some [("X", "Y"), ("A", "B")] ∧
    "X" ∉ tA.cols ∧
    (applyCleaning selMissingKey tA).1 = { cols := ["B"], rows := [[Cell.num 1]] } ∧
    (applyCleaning selMissingKey tA).2 = false ∧
    ¬((applyCleaning selMissingKey tA).1.cols = tA.cols ∧
      (applyCleaning selMissingKey tA).2 = true) := by
  refine ⟨rfl, by decide, rfl, rfl, ?_⟩
  intro h
  exact absurd h.2 (by decide)

/-- C3 amended: whenever every pair of the rename spec parses, the rename is
applied with no warning regardless of whether the old names exist in the
column set: each column label that is a key of the mapping is replaced by the
corresponding new name, labels that are not keys stay unchanged, and keys
matching no label are silently ignored. -/
theorem c3_rename_unmatched_amended (s : String) (t : Table)
    (m : List (String × String)) (h : parseMappings s = some m) :
    (renameStep s t).2 = false ∧
    (renameStep s t).1.cols = t.cols.map (fun c => (dictGet m c).getD c) := by
  unfold renameStep
  rw [h]
  exact ⟨rfl, rfl⟩

/-- Witness for c3_rename_unmatched_amended at the concrete unmatched-key
spec of the counterexample. -/
theorem c3_rename_unmatched_amended_witness :
    (renameStep "X:Y,A:B" tA).2 = false ∧
    (renameStep "X:Y,A:B" tA).1.cols
      = tA.cols.map (fun c => (dictGet [("X", "Y"), ("A", "B")] c).getD c) :=
  c3_rename_unmatched_amended "X:Y,A:B" tA [("X", "Y"), ("A", "B")] (by decide)

/-- No cell of a fillna result is the missing marker. -/
lemma countP_isMissing_fill_eq_zero (v : String) (r : List Cell) :
    (r.map (fillCell v)).countP Cell.isMissing = 0 := by
  induction r with
  | nil => rfl
  | cons c cs ih =>
    have hc : Cell.isMissing (fillCell v c) = false := by
      cases c <;> rfl
    simp [List.countP_cons, hc, ih]

/-- C6: dropping null rows and then filling nulls leaves zero missing-marker
cells, and fill-nulls alone never changes the number of rows. -/
theorem c6_dropna_fillna_no_missing (t : Table) :
    countMissingCells (fillna "N/A" (dropna t)) = 0 ∧
    (fillna "N/A" t).rows.length = t.rows.length := by
  constructor
  · unfold countMissingCells fillna
    apply List.sum_eq_zero
    intro x hx
    simp only [List.map_map, List.mem_map, Function.comp] at hx
    obtain ⟨r, _, hxeq⟩ := hx
    rw [← hxeq]
    exact countP_isMissing_fill_eq_zero "N/A" r
  · simp [fillna]

/-- C10: fill-nulls is exactly the cell-wise map replacing each missing
marker by the literal text N/A regardless of the column's declared type (a
numeric column holding a missing value holds a text cell afterwards) and
leaving every non-missing cell unchanged. -/
theorem c10_fillna_cellwise (t : Table) :
    List.Forall₂
      (List.Forall₂ (fun c d => d = if Cell.isMissing c then Cell.text "N/A" else c))
      t.rows (fillna "N/A" t).rows := by
  unfold fillna
  simp only
  rw [List.forall₂_map_right_iff]
  refine List.forall₂_same.mpr ?_
  intro r _
  rw [List.forall₂_map_right_iff]
  refine List.forall₂_same.mpr ?_
  intro c _
  cases c <;> rfl

/-- C8: the Apply Cleaning handler leaves the loaded table untouched
(cleaning operates on a copy), so the report's original-shape line equals the
shape of the table as loaded, whatever the Cleaning Selection. -/
theorem c8_original_table_preserved (df : Table) (sel : Selection) :
    (applyCleaningHandler df sel).df = df ∧
    (buildReport (applyCleaningHandler df sel)).originalShape = shape df :=
  ⟨rfl, rfl⟩

/-- C9: the profiler classifies a column as empty exactly when its count of
non-missing cells is zero, and on a zero-row table every column is classified
as empty; empty_cols, like the other profile computations, is a total
function, so profiling succeeds on every table including the empty one. -/
theorem c9_empty_column_iff (t : Table) (c : String) :
    (c ∈ empty_cols t ↔ c ∈ t.cols ∧ countNonMissing t c = 0) ∧
    (t.rows = [] → empty_cols t = t.cols) := by
  constructor
  · unfold empty_cols
    rw [List.mem_filter]
    simp
  · intro h
    unfold empty_cols
    refine List.filter_eq_self.mpr ?_
    intro x _
    simp [countNonMissing, colOf, h]

/-- Witness for c9_empty_column_iff on a concrete two-column zero-row table. -/
theorem c9_empty_column_iff_witness :
    ("A" ∈ empty_cols tNoRows ↔ "A" ∈ tNoRows.cols ∧ countNonMissing tNoRows "A" = 0) ∧
    empty_cols tNoRows = tNoRows.cols :=
  ⟨(c9_empty_column_iff tNoRows "A").1, (c9_empty_column_iff tNoRows "A").2 rfl⟩

/-- C5: the spec and the claim say a well-formed Latin-1 CSV that fails the
UTF-8 decode loads successfully through the one-shot Latin-1 retry over the
same full file content.  The code retries on the same stream object without
seek(0), so the retry starts at the position where the failed UTF-8 parse
left the stream (the end of the content for a small upload) and the load
fails with EmptyDataError, which the outer handler of line 194 surfaces as a
load error.  First conjunct: what the code does at the failing input.
Second conjunct: the same full content is a well-formed Latin-1 CSV, the
very table a full-content retry would produce. -/
theorem c5_encoding_fallback_code_bug :
    (loadCsv latin1File).1 = Except.error LoadErr.emptyData ∧
    (read_csv latin1File Encoding.latin1).1 =
      Except.ok { cols := ["a"], rows := [[Cell.text (String.mk [Char.ofNat 233])]] } :=
  ⟨rfl, rfl⟩

end DataCleaner
